import Mathlib

/-!
Verification of the audio-capture and transcription core of even-g2-explore.

Samples are modelled as exact rationals (the idealised arithmetic the spec
describes), byte values as `Fin 256`, buffers as lists.  Stateful classes
become explicit state records with functions returning the new state together
with their observable effects (bridge commands, worker messages, returned
buffers).
-/

namespace EvenG2

/-- A mono audio sample buffer (Float32Array in the source). -/
abbrev SampleBuffer := List ℚ

/-! ### PCM S16LE conversion (src: `pcmS16LEtoFloat32`) -/

/-- Little-endian decoding of one 16-bit signed sample from two bytes,
as performed by the `Int16Array` view over the `Uint8Array`. -/
def toInt16 (lo hi : Fin 256) : ℤ :=
  let u : ℕ := lo.val + 256 * hi.val
  if u < 32768 then (u : ℤ) else (u : ℤ) - 65536

/-- Consecutive byte pairs of the input; a trailing odd byte is dropped
(`uint8.length / 2` floors in the `Int16Array` constructor). -/
def bytePairs : List (Fin 256) → List (Fin 256 × Fin 256)
  | b0 :: b1 :: rest => (b0, b1) :: bytePairs rest
  | _ => []

/-- `pcmS16LEtoFloat32`: decode S16LE bytes and normalise each sample by
dividing by 32768. -/
def pcmS16LEtoFloat32 (uint8 : List (Fin 256)) : SampleBuffer :=
  (bytePairs uint8).map (fun p => (toInt16 p.1 p.2 : ℚ) / 32768)

/-- Little-endian encoding of a 16-bit signed value, for stating round-trip
properties of the decoder. -/
def encodeS16LE (v : ℤ) : List (Fin 256) :=
  [⟨(v % 65536).toNat % 256, Nat.mod_lt _ (by norm_num)⟩,
   ⟨(v % 65536).toNat / 256, by
      have h : (v % 65536).toNat < 65536 := by
        have h0 : 0 ≤ v % 65536 := Int.emod_nonneg v (by norm_num)
        have h1 : v % 65536 < 65536 := Int.emod_lt_of_pos v (by norm_num)
        omega
      omega⟩]

/-! ### Chunk merger (src: `mergeChunks`) -/

/-- `Float32Array.prototype.set(src, offset)`: overwrite `src.length`
entries of `dst` starting at `offset`. -/
def jsSet (dst src : SampleBuffer) (offset : ℕ) : SampleBuffer :=
  dst.take offset ++ src ++ dst.drop (offset + src.length)

/-- `mergeChunks`: allocate a buffer of the total length and copy each chunk
in at a running offset. -/
def mergeChunks (chunks : List SampleBuffer) : SampleBuffer :=
  let totalLength := chunks.foldl (fun sum c => sum + c.length) 0
  (chunks.foldl
    (fun (acc : SampleBuffer × ℕ) chunk =>
      (jsSet acc.1 chunk acc.2, acc.2 + chunk.length))
    (List.replicate totalLength (0 : ℚ), 0)).1

/-! ### Resampler (src: `BrowserAudioCapture.resample`) -/

/-- `Math.round` on a non-negative rational: round half away from zero,
floor of x + 1/2. -/
def jsRound (q : ℚ) : ℤ := Int.floor (q + 1/2)

/-- JS `Float32Array` read at a (possibly out-of-range) integer index;
all reads the resampler performs are proved in range. -/
def rawGet (raw : SampleBuffer) (i : ℤ) : ℚ :=
  if 0 ≤ i then raw.getD i.toNat 0 else 0

/-- `resample`: identity copy when the native rate is already 16 kHz,
otherwise linear interpolation at fractional source positions. -/
def resample (nativeSampleRate : ℕ) (raw : SampleBuffer) : SampleBuffer :=
  if nativeSampleRate = 16000 then raw
  else
    let ratio : ℚ := 16000 / nativeSampleRate
    let outLen : ℕ := (jsRound (raw.length * ratio)).toNat
    (List.range outLen).map (fun (i : ℕ) =>
      let srcIdx : ℚ := (i : ℚ) / ratio
      let lo : ℤ := Int.floor srcIdx
      let hi : ℤ := min (lo + 1) ((raw.length : ℤ) - 1)
      let frac : ℚ := srcIdx - lo
      rawGet raw lo * (1 - frac) + rawGet raw hi * frac)

/-- The interpolation formula as the spec words it: output sample `i` is the
linear interpolation of `raw` at fractional source position
`i * native / 16000`, with the upper index clamped to the last valid one. -/
def specInterp (native : ℕ) (raw : SampleBuffer) (i : ℕ) : ℚ :=
  let srcIdx : ℚ := (i : ℚ) * native / 16000
  let lo : ℤ := Int.floor srcIdx
  let hi : ℤ := min (lo + 1) ((raw.length : ℤ) - 1)
  let frac : ℚ := srcIdx - lo
  rawGet raw lo * (1 - frac) + rawGet raw hi * frac

/-! ### Event-frame capture backend (src: `GlassesAudioCapture`) -/

/-- Side effects the glasses backend issues on the bridge. -/
inductive BridgeCmd
  | audioControl (enabled : Bool)
  | unsubscribe
  deriving DecidableEq, Repr

/-- Mutable state of a `GlassesAudioCapture` instance. -/
structure GlassesState where
  chunks : List SampleBuffer
  recording : Bool
  subscribed : Bool
  deriving DecidableEq, Repr

namespace GlassesAudioCapture

/-- State of a freshly constructed instance (field initialisers). -/
def initial : GlassesState :=
  { chunks := [], recording := false, subscribed := false }

/-- `start()`: reset chunks, set the recording flag, subscribe to bridge
events and switch device audio on. -/
def start (_st : GlassesState) : GlassesState × List BridgeCmd :=
  ({ chunks := [], recording := true, subscribed := true },
   [BridgeCmd.audioControl true])

/-- The bridge event callback: while recording, an audio-bearing event's PCM
payload is converted and appended; other events are ignored. -/
def onEvent (st : GlassesState) (audioPcm : Option (List (Fin 256))) :
    GlassesState :=
  match audioPcm with
  | some bytes =>
      if st.recording then
        { st with chunks := st.chunks ++ [pcmS16LEtoFloat32 bytes] }
      else st
  | none => st

/-- `getAudio()`: merge of everything accumulated so far; state untouched. -/
def getAudio (st : GlassesState) : GlassesState × SampleBuffer :=
  (st, mergeChunks st.chunks)

/-- `stop()`: clear the recording flag, switch device audio off, run the
unsubscribe handle when one is held (`this.unsubscribe?.()`), null it, and
return the merged buffer. -/
def stop (st : GlassesState) : GlassesState × List BridgeCmd × SampleBuffer :=
  ({ st with recording := false, subscribed := false },
   BridgeCmd.audioControl false ::
     (if st.subscribed then [BridgeCmd.unsubscribe] else []),
   mergeChunks st.chunks)

end GlassesAudioCapture

/-! ### Live-stream capture backend (src: `BrowserAudioCapture`) -/

/-- Mutable state of a `BrowserAudioCapture` instance (the parts the claims
concern: accumulated chunks, the native rate read off the context, and
whether a processing graph is connected). -/
structure BrowserState where
  chunks : List SampleBuffer
  nativeSampleRate : ℕ
  running : Bool
  deriving DecidableEq, Repr

namespace BrowserAudioCapture

/-- `start()`: reset chunks and open a context at whatever rate the platform
reports. -/
def start (_st : BrowserState) (platformRate : ℕ) : BrowserState :=
  { chunks := [], nativeSampleRate := platformRate, running := true }

/-- The `onaudioprocess` callback: copy the delivered block into the list. -/
def onaudioprocess (st : BrowserState) (input : SampleBuffer) : BrowserState :=
  { st with chunks := st.chunks ++ [input] }

/-- `getAudio()`: merge and resample without altering state. -/
def getAudio (st : BrowserState) : BrowserState × SampleBuffer :=
  (st, resample st.nativeSampleRate (mergeChunks st.chunks))

/-- `stop()`: tear the graph down and return the merged, resampled buffer. -/
def stop (st : BrowserState) : BrowserState × SampleBuffer :=
  ({ st with running := false },
   resample st.nativeSampleRate (mergeChunks st.chunks))

end BrowserAudioCapture

/-! ### Recognition worker (src: worker.ts) -/

/-- Worker responses (`WorkerResponse` in the source). -/
inductive WorkerResponse
  | progress (status : String) (file : Option String) (pct : Option ℚ)
  | ready (device : String)
  | result (text : String)
  | error (err : String)
  deriving DecidableEq, Repr

/-- What the recognition pipeline returns on success: a single object with a
`text` field, or an array of candidates. -/
inductive PipelineOutput
  | single (text : String)
  | arr (texts : List String)

/-- The loaded model, treated as an opaque audio-in/output function that may
throw (`Except.error` carries the exception message). -/
def Transcriber : Type := SampleBuffer → Except String PipelineOutput

/-- Is a response a `result`? -/
def WorkerResponse.isResult : WorkerResponse → Bool
  | WorkerResponse.result _ => true
  | _ => false

/-- Is a response an `error`? -/
def WorkerResponse.isError : WorkerResponse → Bool
  | WorkerResponse.error _ => true
  | _ => false

namespace Worker

/-- The `transcribe` function body: with no model loaded it posts one error
and returns; otherwise it invokes the model, takes the first candidate's
text, trims it and posts a `result`.  `Except.error` is a thrown exception
escaping `transcribe` (model invocation, or the `result[0].text` access on
an empty array). -/
def transcribe (transcriber : Option Transcriber) (audio : SampleBuffer) :
    Except String (List WorkerResponse) :=
  match transcriber with
  | none => Except.ok [WorkerResponse.error "Model not loaded"]
  | some t =>
    match t audio with
    | Except.error e => Except.error e
    | Except.ok (PipelineOutput.single text) =>
        Except.ok [WorkerResponse.result text.trim]
    | Except.ok (PipelineOutput.arr []) =>
        Except.error "TypeError: Cannot read properties of undefined"
    | Except.ok (PipelineOutput.arr (text :: _)) =>
        Except.ok [WorkerResponse.result text.trim]

/-- The `onmessage` branch for a `transcribe` request: run `transcribe`,
catching any exception as one `error` response; the `transcriber` global is
never written on this path. -/
def onTranscribe (transcriber : Option Transcriber) (audio : SampleBuffer) :
    Option Transcriber × List WorkerResponse :=
  match transcribe transcriber audio with
  | Except.ok msgs => (transcriber, msgs)
  | Except.error e =>
      (transcriber, [WorkerResponse.error ("Transcription failed: " ++ e)])

end Worker

/-! ### Recording session controller (src: `stopRecording` in the main
module) -/

/-- Requests the controller posts to the worker. -/
inductive WorkerRequest
  | load
  | transcribe (audio : SampleBuffer)
  deriving DecidableEq, Repr

/-- Controller-visible session state: the recording flag plus the
user-facing status/trigger widgets. -/
structure SessionState where
  recording : Bool
  statusText : String
  btnText : String
  btnDisabled : Bool
  deriving DecidableEq, Repr

/-- `stopRecording()`: guard on an active capture and the recording flag,
disable the trigger while stopping, then on a successful backend `stop()`
either reject short utterances (< 1600 samples) locally or dispatch one
`transcribe` request; a backend failure recovers to a retry-ready state. -/
def stopRecording (hasCapture : Bool) (st : SessionState)
    (stopResult : Except String SampleBuffer) :
    SessionState × List WorkerRequest :=
  if ¬hasCapture ∨ ¬st.recording then (st, [])
  else
    let st1 : SessionState :=
      { st with recording := false, btnText := "...", btnDisabled := true }
    match stopResult with
    | Except.ok audio =>
      if audio.length < 1600 then
        ({ st1 with statusText := "Too short - try again",
                    btnText := "Record", btnDisabled := false }, [])
      else
        ({ st1 with statusText := "Transcribing...", btnDisabled := false },
         [WorkerRequest.transcribe audio])
    | Except.error _ =>
        ({ st1 with statusText := "Audio error - try again",
                    btnText := "Record", btnDisabled := false }, [])

/-! ### Helper lemmas -/

lemma foldl_add_length (chunks : List SampleBuffer) (n : ℕ) :
    chunks.foldl (fun sum c => sum + c.length) n
      = n + (chunks.map List.length).sum := by
  induction chunks generalizing n with
  | nil => simp
  | cons c cs ih => simp [ih, Nat.add_assoc]

lemma jsSet_aligned (p c : SampleBuffer) (k : ℕ) :
    jsSet (p ++ List.replicate (c.length + k) 0) c p.length
      = (p ++ c) ++ List.replicate k 0 := by
  unfold jsSet
  rw [List.take_append_of_le_length le_rfl, List.take_length,
    List.replicate_add, ← List.append_assoc,
    show p.length + c.length
        = (p ++ List.replicate c.length (0:ℚ)).length by simp,
    List.drop_left]

lemma foldl_jsSet (chunks : List SampleBuffer) (p : SampleBuffer) :
    (chunks.foldl
      (fun (acc : SampleBuffer × ℕ) chunk =>
        (jsSet acc.1 chunk acc.2, acc.2 + chunk.length))
      (p ++ List.replicate (chunks.map List.length).sum 0, p.length)).1
      = p ++ chunks.flatten := by
  induction chunks generalizing p with
  | nil => simp
  | cons c cs ih =>
    simp only [List.foldl_cons, List.map_cons, List.sum_cons,
      List.flatten_cons]
    rw [jsSet_aligned p c (cs.map List.length).sum,
      show p.length + c.length = (p ++ c).length by simp]
    simpa [List.append_assoc] using ih (p ++ c)

/-- The merger computes exactly the concatenation of its inputs. -/
lemma mergeChunks_eq_flatten (chunks : List SampleBuffer) :
    mergeChunks chunks = chunks.flatten := by
  simp only [mergeChunks, foldl_add_length, Nat.zero_add]
  simpa using foldl_jsSet chunks []

lemma flatten_getD (chunks : List SampleBuffer) (k j : ℕ)
    (hk : k < chunks.length) (hj : j < (chunks.getD k []).length) :
    chunks.flatten.getD (((chunks.take k).map List.length).sum + j) 0
      = (chunks.getD k []).getD j 0 := by
  induction chunks generalizing k with
  | nil => simp at hk
  | cons c cs ih =>
    cases k with
    | zero =>
      simp only [List.getD_cons_zero] at hj ⊢
      simp only [List.take_zero, List.map_nil, List.sum_nil, Nat.zero_add,
        List.flatten_cons]
      exact List.getD_append _ _ _ _ hj
    | succ k =>
      simp only [List.getD_cons_succ] at hj ⊢
      simp only [List.take_succ_cons, List.map_cons, List.sum_cons,
        List.flatten_cons, Nat.add_assoc]
      rw [List.getD_append_right _ _ _ _ (by omega)]
      simpa using ih k (by simpa using hk) hj

lemma jsRound_natCast (n : ℕ) : jsRound (n : ℚ) = n := by
  unfold jsRound
  rw [Int.floor_eq_iff]
  constructor <;> push_cast <;> linarith

lemma toInt16_bounds (lo hi : Fin 256) :
    -32768 ≤ toInt16 lo hi ∧ toInt16 lo hi ≤ 32767 := by
  simp only [toInt16]
  have h1 := lo.isLt
  have h2 := hi.isLt
  split <;> omega

lemma pcm_mem_range (bytes : List (Fin 256)) (x : ℚ)
    (hx : x ∈ pcmS16LEtoFloat32 bytes) : -1 ≤ x ∧ x ≤ 1 := by
  unfold pcmS16LEtoFloat32 at hx
  rw [List.mem_map] at hx
  obtain ⟨p, -, rfl⟩ := hx
  obtain ⟨h1, h2⟩ := toInt16_bounds p.1 p.2
  have h1q : (-32768 : ℚ) ≤ (toInt16 p.1 p.2 : ℚ) := by exact_mod_cast h1
  have h2q : (toInt16 p.1 p.2 : ℚ) ≤ 32767 := by exact_mod_cast h2
  constructor
  · rw [le_div_iff₀ (by norm_num : (0:ℚ) < 32768)]
    linarith
  · rw [div_le_one (by norm_num : (0:ℚ) < 32768)]
    linarith

lemma rawGet_range (raw : SampleBuffer)
    (h : ∀ x ∈ raw, -1 ≤ x ∧ x ≤ 1) (i : ℤ) :
    -1 ≤ rawGet raw i ∧ rawGet raw i ≤ 1 := by
  unfold rawGet
  split
  · rcases Nat.lt_or_ge i.toNat raw.length with hlt | hge
    · rw [List.getD_eq_getElem _ _ hlt]
      exact h _ (List.getElem_mem hlt)
    · rw [List.getD_eq_default _ _ hge]
      norm_num
  · norm_num

lemma resample_mem_range (native : ℕ) (raw : SampleBuffer)
    (h : ∀ x ∈ raw, -1 ≤ x ∧ x ≤ 1) :
    ∀ y ∈ resample native raw, -1 ≤ y ∧ y ≤ 1 := by
  intro y hy
  unfold resample at hy
  split at hy
  · exact h y hy
  · rw [List.mem_map] at hy
    obtain ⟨i, -, rfl⟩ := hy
    dsimp only
    set s : ℚ := (i : ℚ) / (16000 / native) with hs
    have hf0 : (0:ℚ) ≤ s - ⌊s⌋ := by
      have := Int.floor_le s
      linarith
    have hf1 : s - ⌊s⌋ ≤ 1 := by
      have := Int.lt_floor_add_one s
      push_cast at this ⊢
      linarith
    obtain ⟨ha1, ha2⟩ := rawGet_range raw h ⌊s⌋
    obtain ⟨hb1, hb2⟩ := rawGet_range raw h (min (⌊s⌋ + 1) ((raw.length : ℤ) - 1))
    constructor <;> nlinarith

lemma mergeChunks_mem_range (chunks : List SampleBuffer)
    (h : ∀ c ∈ chunks, ∀ x ∈ c, -1 ≤ x ∧ x ≤ 1) :
    ∀ y ∈ mergeChunks chunks, -1 ≤ y ∧ y ≤ 1 := by
  intro y hy
  rw [mergeChunks_eq_flatten, List.mem_flatten] at hy
  obtain ⟨c, hc, hyc⟩ := hy
  exact h c hc y hyc

lemma pcm_encode_eq (v : ℤ) (h1 : -32768 ≤ v) (h2 : v ≤ 32767) :
    pcmS16LEtoFloat32 (encodeS16LE v) = [(v : ℚ) / 32768] := by
  unfold pcmS16LEtoFloat32 encodeS16LE
  simp only [bytePairs, List.map_cons, List.map_nil, List.cons.injEq, and_true]
  have ha : (((v % 65536).toNat : ℤ)) = v % 65536 :=
    Int.toNat_of_nonneg (Int.emod_nonneg v (by norm_num))
  have hz : toInt16 ⟨(v % 65536).toNat % 256, Nat.mod_lt _ (by norm_num)⟩
      ⟨(v % 65536).toNat / 256, by
        have h0 : 0 ≤ v % 65536 := Int.emod_nonneg v (by norm_num)
        have hlt : v % 65536 < 65536 := Int.emod_lt_of_pos v (by norm_num)
        omega⟩ = v := by
    unfold toInt16
    simp only [Nat.mod_add_div]
    split <;> omega
  rw [hz]

/-- A fixed transcriber that throws on every input, to witness the
exception path. -/
def failingTranscriber : Transcriber := fun _ => Except.error "boom"

/-- The session state while a recording is in progress. -/
def recordingSession : SessionState :=
  { recording := true, statusText := "Recording...", btnText := "Stop",
    btnDisabled := false }

/-! ### Claim theorems -/

/-- C4: the chunk merger returns one buffer whose length is the sum of the
input lengths, whose position `offset_k + j` holds input `k`'s sample `j`
(concatenation in order, no gaps or overlaps), with empty input yielding
empty output; merging `[1, -1, 0.5]` with `[0.25]` yields
`[1, -1, 0.5, 0.25]`.  (The embedding is pure, so inputs are not mutated.) -/
theorem mergeChunks_spec (chunks : List SampleBuffer) :
    (mergeChunks chunks).length = (chunks.map List.length).sum ∧
    (∀ k j, k < chunks.length → j < (chunks.getD k []).length →
      (mergeChunks chunks).getD (((chunks.take k).map List.length).sum + j) 0
        = (chunks.getD k []).getD j 0) ∧
    mergeChunks [] = [] ∧
    mergeChunks [[1, -1, 1/2], [1/4]] = [1, -1, 1/2, 1/4] := by
  refine ⟨?_, ?_, rfl, ?_⟩
  · rw [mergeChunks_eq_flatten]
    simp
  · intro k j hk hj
    rw [mergeChunks_eq_flatten]
    exact flatten_getD chunks k j hk hj
  · rw [mergeChunks_eq_flatten]
    rfl

/-- Witness for C4 at a concrete input: merging `[[1], [2]]`, position
`offset_1 + 0` holds the second chunk's first sample. -/
theorem mergeChunks_spec_witness :
    (mergeChunks [[(1:ℚ)], [2]]).getD
        ((([[(1:ℚ)], [2]].take 1).map List.length).sum + 0) 0
      = ([[(1:ℚ)], [2]].getD 1 []).getD 0 0 :=
  (mergeChunks_spec [[(1:ℚ)], [2]]).2.1 1 0 (by decide) (by decide)

/-- C5 counterexample: after `stop()` on a glasses-backend state holding one
accumulated chunk, the chunk list is NOT empty — `stop()`/`getAudio()` do
not clear the accumulated chunks. -/
theorem stop_clears_chunks_cex :
    ¬ ((GlassesAudioCapture.stop
        { chunks := [[1]], recording := true, subscribed := true }).1.chunks
      = []) := by
  decide

/-- C5 (amended): the accumulated chunk list is created/reset by `start()`;
`stop()` and `getAudio()` merge and return the accumulated chunks but leave
the list unchanged — it is cleared only by the next `start()`. -/
theorem chunks_reset_only_on_start :
    (∀ st, (GlassesAudioCapture.start st).1.chunks = []) ∧
    (∀ st, (GlassesAudioCapture.stop st).1.chunks = st.chunks) ∧
    (∀ st, (GlassesAudioCapture.getAudio st).1.chunks = st.chunks) ∧
    (∀ st rate, (BrowserAudioCapture.start st rate).chunks = []) ∧
    (∀ st, (BrowserAudioCapture.stop st).1.chunks = st.chunks) ∧
    (∀ st, (BrowserAudioCapture.getAudio st).1.chunks = st.chunks) :=
  ⟨fun _ => rfl, fun _ => rfl, fun _ => rfl, fun _ _ => rfl,
   fun _ => rfl, fun _ => rfl⟩

/-- C6: S16LE PCM samples convert to float as `sample / 32768`; value 32767
yields exactly 32767/32768 (≈ 0.99997), value -32768 yields exactly -1, and
value 0 yields 0. -/
theorem pcm_s16le_spec (v : ℤ) (h1 : -32768 ≤ v) (h2 : v ≤ 32767) :
    pcmS16LEtoFloat32 (encodeS16LE v) = [(v : ℚ) / 32768] ∧
    pcmS16LEtoFloat32 (encodeS16LE 32767) = [32767 / 32768] ∧
    pcmS16LEtoFloat32 (encodeS16LE (-32768)) = [-1] ∧
    pcmS16LEtoFloat32 (encodeS16LE 0) = [0] := by
  refine ⟨pcm_encode_eq v h1 h2, ?_, ?_, ?_⟩
  · rw [pcm_encode_eq 32767 (by norm_num) (by norm_num)]
    norm_num
  · rw [pcm_encode_eq (-32768) (by norm_num) (by norm_num)]
    norm_num
  · rw [pcm_encode_eq 0 (by norm_num) (by norm_num)]
    norm_num

/-- Witness for C6 at the maximal positive sample value. -/
theorem pcm_s16le_spec_witness :
    pcmS16LEtoFloat32 (encodeS16LE 32767) = [(32767 : ℚ) / 32768] :=
  (pcm_s16le_spec 32767 (by norm_num) (by norm_num)).1

/-- C7: when the native rate equals the target rate 16000 Hz, the resampler
returns the input unchanged, sample for sample, including for zero-length
input (the source takes a fresh copy via `new Float32Array(raw)`; the
embedding is pure, so only value equality is expressed). -/
theorem resample_identity (raw : SampleBuffer) :
    resample 16000 raw = raw ∧ resample 16000 ([] : SampleBuffer) = [] :=
  ⟨by simp [resample], by simp [resample]⟩

/-- C10: `stop()` on a freshly constructed glasses backend, before any
`start()`, does not throw (it is a total function here), returns an empty
buffer, emits no unsubscribe call (the handle is null), and the chunk list
is initially empty. -/
theorem stop_before_start :
    (GlassesAudioCapture.stop GlassesAudioCapture.initial).2.2 = [] ∧
    (GlassesAudioCapture.stop GlassesAudioCapture.initial).2.1
      = [BridgeCmd.audioControl false] ∧
    GlassesAudioCapture.initial.chunks = [] := by
  refine ⟨?_, rfl, rfl⟩
  rw [show (GlassesAudioCapture.stop GlassesAudioCapture.initial).2.2
      = mergeChunks [] from rfl, mergeChunks_eq_flatten]
  rfl

/-- C2: a `transcribe` request handled before any successful `load` (no
model loaded) yields exactly one `error` response and zero `result`
responses, and the outcome does not depend on the audio buffer (the model
is never invoked). -/
theorem transcribe_before_load (audio : SampleBuffer) :
    Worker.onTranscribe none audio
      = (none, [WorkerResponse.error "Model not loaded"]) ∧
    ((Worker.onTranscribe none audio).2.filter WorkerResponse.isError).length
      = 1 ∧
    ((Worker.onTranscribe none audio).2.filter
        WorkerResponse.isResult).length = 0 ∧
    (∀ audio2, Worker.onTranscribe none audio
      = Worker.onTranscribe none audio2) :=
  ⟨rfl, rfl, rfl, fun _ => rfl⟩

/-- C8: an exception thrown while transcribing with a loaded model yields
exactly one `error` response and zero `result` responses, and leaves the
loaded model reference unchanged, so a later `transcribe` still finds a
model loaded. -/
theorem transcribe_exception_keeps_model (t : Transcriber)
    (audio : SampleBuffer) (e : String) (h : t audio = Except.error e) :
    Worker.onTranscribe (some t) audio
      = (some t, [WorkerResponse.error ("Transcription failed: " ++ e)]) ∧
    (Worker.onTranscribe (some t) audio).1 = some t ∧
    ((Worker.onTranscribe (some t) audio).2.filter
        WorkerResponse.isError).length = 1 ∧
    ((Worker.onTranscribe (some t) audio).2.filter
        WorkerResponse.isResult).length = 0 := by
  have hT : Worker.transcribe (some t) audio = Except.error e := by
    simp only [Worker.transcribe]
    rw [h]
  unfold Worker.onTranscribe
  rw [hT]
  exact ⟨rfl, rfl, rfl, rfl⟩

/-- Witness for C8 with a transcriber that always throws. -/
theorem transcribe_exception_keeps_model_witness :
    Worker.onTranscribe (some failingTranscriber) []
      = (some failingTranscriber,
         [WorkerResponse.error ("Transcription failed: " ++ "boom")]) :=
  (transcribe_exception_keeps_model failingTranscriber [] "boom" rfl).1

/-- C3: `stopRecording()` in the Recording state with a successful backend
stop: a buffer of fewer than 1600 samples is rejected — no `transcribe`
request is dispatched, a "too short" condition is reported, and the session
returns to Idle with the record trigger re-enabled; with 1600 or more
samples exactly one `transcribe` request is dispatched. -/
theorem stopRecording_minLength (st : SessionState) (audio : SampleBuffer)
    (hrec : st.recording = true) :
    (audio.length < 1600 →
      (stopRecording true st (Except.ok audio)).2 = [] ∧
      (stopRecording true st (Except.ok audio)).1.recording = false ∧
      (stopRecording true st (Except.ok audio)).1.btnDisabled = false ∧
      (stopRecording true st (Except.ok audio)).1.statusText
        = "Too short - try again") ∧
    (1600 ≤ audio.length →
      (stopRecording true st (Except.ok audio)).2
        = [WorkerRequest.transcribe audio]) := by
  obtain ⟨rec, stat, btn, dis⟩ := st
  simp only [SessionState.recording] at hrec
  subst hrec
  constructor
  · intro hlen
    unfold stopRecording
    rw [if_neg (by simp)]
    dsimp only
    rw [if_pos hlen]
    exact ⟨rfl, rfl, rfl, rfl⟩
  · intro hlen
    unfold stopRecording
    rw [if_neg (by simp)]
    dsimp only
    rw [if_neg (Nat.not_lt.mpr hlen)]

/-- Witness for C3: a zero-length buffer is rejected with no worker request;
a 1600-sample buffer is dispatched. -/
theorem stopRecording_minLength_witness :
    (stopRecording true recordingSession (Except.ok [])).2 = [] ∧
    (stopRecording true recordingSession
        (Except.ok (List.replicate 1600 0))).2
      = [WorkerRequest.transcribe (List.replicate 1600 0)] :=
  ⟨((stopRecording_minLength recordingSession [] rfl).1 (by norm_num)).1,
   (stopRecording_minLength recordingSession (List.replicate 1600 0) rfl).2
     (by simp only [List.length_replicate]; exact le_rfl)⟩

/-- C1: for every positive native rate, the resampler produces a sequence
of length `round(len * 16000/native)` whose sample `i` is the linear
interpolation of the input at fractional source position
`i * native/16000` with the upper index clamped to the last valid source
index; empty input yields empty output, and resampling `[1, 0]` from
8000 Hz yields the 4 samples `[1, 1/2, 0, 0]`. -/
theorem resample_spec (native : ℕ) (hn : 0 < native) (raw : SampleBuffer) :
    (resample native raw).length
      = (jsRound ((raw.length : ℚ) * (16000 / native))).toNat ∧
    (∀ i, i < (resample native raw).length →
      (resample native raw).getD i 0 = specInterp native raw i) ∧
    resample native [] = [] ∧
    resample 8000 [1, 0] = [1, 1/2, 0, 0] := by
  refine ⟨?_, ?_, ?_, ?_⟩
  · by_cases h : native = 16000
    · subst h
      rw [show resample 16000 raw = raw from by simp [resample],
        show ((16000:ℕ):ℚ) = 16000 from by norm_num,
        div_self (by norm_num : (16000:ℚ) ≠ 0), mul_one, jsRound_natCast,
        Int.toNat_natCast]
    · simp only [resample, if_neg h, List.length_map, List.length_range]
  · intro i hi
    by_cases h : native = 16000
    · subst h
      simp only [resample, if_pos rfl] at hi ⊢
      simp only [specInterp]
      have e1 : (i:ℚ) * ((16000:ℕ):ℚ) / 16000 = (i:ℚ) := by
        push_cast
        rw [mul_div_assoc]
        norm_num
      rw [e1, Int.floor_natCast]
      have e2 : (i:ℚ) - (((i:ℕ):ℤ):ℚ) = 0 := by push_cast; ring
      rw [e2, mul_zero, add_zero, sub_zero, mul_one]
      simp [rawGet]
    · simp only [resample, if_neg h, List.length_map, List.length_range] at hi
      simp only [resample, if_neg h]
      rw [List.getD_eq_getElem _ _
        (by simpa only [List.length_map, List.length_range] using hi)]
      rw [List.getElem_map, List.getElem_range]
      simp only [specInterp]
      rw [div_div_eq_mul_div]
  · by_cases h : native = 16000
    · simp [resample, h]
    · have hj : jsRound (0 : ℚ) = 0 := by
        unfold jsRound
        rw [zero_add, Int.floor_eq_zero_iff]
        constructor <;> norm_num
      simp [resample, if_neg h, hj]
  · have hout : (jsRound ((([1, 0] : SampleBuffer).length : ℚ)
        * (16000 / ((8000:ℕ):ℚ)))).toNat = 4 := by
      norm_num [jsRound]
      decide
    simp only [resample, if_neg (show ¬((8000:ℕ) = 16000) from by decide)]
    rw [hout, show List.range 4 = [0, 1, 2, 3] from rfl]
    simp only [List.map_cons, List.map_nil, rawGet]
    have hfract : Int.fract ((1:ℚ)/2) = 1/2 := by
      unfold Int.fract
      norm_num
    norm_num [hfract]

/-- Witness for C1 at native rate 8000 with input `[1, 0]`. -/
theorem resample_spec_witness :
    resample 8000 [1, 0] = [1, 1/2, 0, 0] :=
  (resample_spec 8000 (by norm_num) [1, 0]).2.2.2

/-- C9: every sample buffer leaving a capture backend is in [-1, 1]:
PCM-converted samples are `v/32768` with `v` a 16-bit value; linear
interpolation of in-range inputs stays in range; hence the glasses
backend's `stop()`/`getAudio()` (chunks produced by PCM conversion) and
the browser backend's `stop()`/`getAudio()` (in-range native chunks)
return buffers whose every sample lies in [-1, 1]. -/
theorem sampleBuffer_inRange :
    (∀ bytes, ∀ x ∈ pcmS16LEtoFloat32 bytes, -1 ≤ x ∧ x ≤ 1) ∧
    (∀ native raw, (∀ x ∈ raw, -1 ≤ x ∧ x ≤ 1) →
      ∀ y ∈ resample native raw, -1 ≤ y ∧ y ≤ 1) ∧
    (∀ st : GlassesState,
      (∀ c ∈ st.chunks, ∃ bytes, c = pcmS16LEtoFloat32 bytes) →
      (∀ y ∈ (GlassesAudioCapture.stop st).2.2, -1 ≤ y ∧ y ≤ 1) ∧
      (∀ y ∈ (GlassesAudioCapture.getAudio st).2, -1 ≤ y ∧ y ≤ 1)) ∧
    (∀ st : BrowserState,
      (∀ c ∈ st.chunks, ∀ x ∈ c, -1 ≤ x ∧ x ≤ 1) →
      (∀ y ∈ (BrowserAudioCapture.stop st).2, -1 ≤ y ∧ y ≤ 1) ∧
      (∀ y ∈ (BrowserAudioCapture.getAudio st).2, -1 ≤ y ∧ y ≤ 1)) := by
  refine ⟨pcm_mem_range, resample_mem_range, ?_, ?_⟩
  · intro st hst
    have hc : ∀ c ∈ st.chunks, ∀ x ∈ c, -1 ≤ x ∧ x ≤ 1 := by
      intro c hcm x hx
      obtain ⟨bytes, rfl⟩ := hst c hcm
      exact pcm_mem_range bytes x hx
    exact ⟨mergeChunks_mem_range st.chunks hc,
      mergeChunks_mem_range st.chunks hc⟩
  · intro st hst
    have h1 := mergeChunks_mem_range st.chunks hst
    exact ⟨resample_mem_range _ _ h1, resample_mem_range _ _ h1⟩

/-- Witness for C9: the PCM conversion of the zero sample is in range. -/
theorem sampleBuffer_inRange_witness :
    -1 ≤ (0 : ℚ) ∧ (0 : ℚ) ≤ 1 :=
  sampleBuffer_inRange.1 [⟨0, by norm_num⟩, ⟨0, by norm_num⟩] 0
    (by norm_num [pcmS16LEtoFloat32, bytePairs, toInt16])

end EvenG2
